import Mathlib

set_option maxHeartbeats 1000000

/-
Shallow embedding of the pyxctsk geodesic task route optimizer
(src/app/lib/pyxctsk/): optimization_config.py, turnpoint.py,
route_optimization.py, distance.py, task_distances.py, plus the task shapes
from task.py that the adapter consumes.

Floating point numbers are modelled as rationals.  The numeric geodesy kernel
(geopy geodesic distance, pyproj Geod direct/inverse problems and the scipy
fminbound searches inside _find_optimal_cylinder_point and the interior of
_find_optimal_goal_line_point) is an oracle bundle `Geo`; every piece of
control flow written in the repository itself is translated directly.
-/

/-- Geographic point: a (lat, lon) pair, as used for dict keys and route
coordinates throughout the source. -/
abbrev Point : Type := ℚ × ℚ

/-- Oracle bundle for the numeric geodesy kernel.
`dist p q` is `geodesic(p, q).meters` (geopy);
`optCyl c r prev next` is `_find_optimal_cylinder_point(c, r, prev, next)`
(turnpoint.py, scipy fminbound over the perimeter azimuth);
`optLine c L prev next` is the numeric interior of
`TaskTurnpoint._find_optimal_goal_line_point` once the goal-line length `L`
has been resolved (the `None -> 400.0` resolution is in the source and is
kept outside the oracle). -/
structure Geo where
  dist : Point → Point → ℚ
  optCyl : Point → ℚ → Point → Point → Point
  optLine : Point → ℚ → Point → Point → Point

/- ---------------- optimization_config.py ---------------- -/

/-- optimization_config.DEFAULT_ANGLE_STEP. -/
def DEFAULT_ANGLE_STEP : ℤ := 10

/-- optimization_config.DEFAULT_BEAM_WIDTH. -/
def DEFAULT_BEAM_WIDTH : ℤ := 10

/-- optimization_config.DEFAULT_NUM_ITERATIONS. -/
def DEFAULT_NUM_ITERATIONS : ℤ := 5

/-- The dictionary returned by `get_optimization_config`. -/
structure OptConfig where
  angleStep : ℤ
  beamWidth : ℤ
  numIterations : ℤ
deriving DecidableEq, Repr

/-- optimization_config.get_optimization_config: substitutes the module
defaults for arguments that were not supplied.  (The source performs no
range validation of any kind.) -/
def getOptimizationConfig (angleStep beamWidth numIterations : Option ℤ) :
    OptConfig :=
  { angleStep := angleStep.getD DEFAULT_ANGLE_STEP
    beamWidth := beamWidth.getD DEFAULT_BEAM_WIDTH
    numIterations := numIterations.getD DEFAULT_NUM_ITERATIONS }

/- ---------------- turnpoint.py ---------------- -/

/-- turnpoint.TaskTurnpoint: `center`, `radius`, `goal_type`
(None, "CYLINDER" or "LINE") and `goal_line_length`. -/
structure TaskTurnpoint where
  center : Point
  radius : ℚ
  goal_type : Option String
  goal_line_length : Option ℚ
deriving DecidableEq, Repr

/-- Placeholder turnpoint used for out-of-range list indexing; every index
used by the translated code is in range wherever Python would not raise. -/
def dummyTp : TaskTurnpoint := ⟨(0, 0), 0, none, none⟩

/-- TaskTurnpoint._find_optimal_goal_line_point.  The source resolves
`goal_line_length` (`None` falls back to the 400.0 m FAI default) and then
performs a purely numeric computation on `prev_point` and the resolved
length, delegated to the `optLine` oracle.  `next_point` is accepted but
unused by the numeric body, as in the source. -/
def TaskTurnpoint.findOptimalGoalLinePoint (geo : Geo) (tp : TaskTurnpoint)
    (prev next : Point) : Point :=
  geo.optLine tp.center (tp.goal_line_length.getD 400) prev next

/-- TaskTurnpoint.optimal_point: goal lines are delegated to
`_find_optimal_goal_line_point`, radius-0 cylinders return the centre, and
positive cylinders call `_find_optimal_cylinder_point`. -/
def TaskTurnpoint.optimalPoint (geo : Geo) (tp : TaskTurnpoint)
    (prev next : Point) : Point :=
  if tp.goal_type = some "LINE" then tp.findOptimalGoalLinePoint geo prev next
  else if tp.radius = 0 then tp.center
  else geo.optCyl tp.center tp.radius prev next

/-- turnpoint.distance_through_centers: sum of geodesic legs between
successive centres; 0 for fewer than two turnpoints. -/
def distanceThroughCenters (geo : Geo) (tps : List TaskTurnpoint) : ℚ :=
  if tps.length < 2 then 0
  else
    (List.range (tps.length - 1)).foldl
      (fun total i =>
        total + geo.dist (tps.getD i dummyTp).center
          (tps.getD (i + 1) dummyTp).center)
      0

/- ---------------- route_optimization.py ---------------- -/

/-- One stage of the DP structure: an insertion-ordered map from candidate
points on the stage's turnpoint to `(best_distance, parent_point)`, exactly
the role of the Python dict `dp[i]`. -/
abbrev Stage : Type := List (Point × ℚ × Option Point)

/-- Dict lookup on a stage (no defaulting; `none` when the key is absent). -/
def lookupCand (st : Stage) (p : Point) : Option (ℚ × Option Point) :=
  match st with
  | [] => none
  | (q, v) :: rest => if q = p then some v else lookupCand rest p

/-- Dict update on a stage: overwrite in place when the key is present
(Python dicts keep the original insertion position), append otherwise. -/
def updateCand (st : Stage) (p : Point) (v : ℚ × Option Point) : Stage :=
  match st with
  | [] => [(p, v)]
  | (q, w) :: rest =>
      if q = p then (p, v) :: rest else (q, w) :: updateCand rest p v

/-- The candidate-point selection in the loop body of `_process_dp_stage`:
goal lines use `_find_optimal_goal_line_point`, radius-0 turnpoints use the
centre, and the rest use `optimal_point`. -/
def dpCandidate (geo : Geo) (tp : TaskTurnpoint) (prev nextCenter : Point) :
    Point :=
  if tp.goal_type = some "LINE" then
    tp.findOptimalGoalLinePoint geo prev nextCenter
  else if tp.radius = 0 then tp.center
  else tp.optimalPoint geo prev nextCenter

/-- The candidate-point selection in `_process_dp_stage_with_refined_target`
(no goal-line branch). -/
def dpCandidateRefined (geo : Geo) (tp : TaskTurnpoint)
    (prev nextCenter : Point) : Point :=
  if tp.radius = 0 then tp.center else tp.optimalPoint geo prev nextCenter

/-- Comparison key of the beam-search sort: `kv[1][0]`, the candidate's total
cumulative distance. -/
def leTotal (a b : Point × ℚ × Option Point) : Bool :=
  decide (a.2.1 ≤ b.2.1)

/-- The beam-pruning block shared verbatim by `_process_dp_stage` and
`_process_dp_stage_with_refined_target`: when the candidate map has more than
`beam_width` entries, keep the first `beam_width` entries of the stable
ascending sort by total distance (Python `sorted` is stable, as is
`List.mergeSort`). -/
def beamPrune (beamWidth : ℤ) (st : Stage) : Stage :=
  if beamWidth < (st.length : ℤ) then
    (st.mergeSort leTotal).take beamWidth.toNat
  else st

/-- The candidate-accumulation loop shared by both stage functions: for each
`(prev_point, (prev_dist, _))` of the previous stage, compute this stage's
candidate via `cand`, and keep the best total distance per candidate point.
An absent key reads as `(inf, None)` in the Python defaultdict, so a fresh
candidate (total < inf) is always appended. -/
def accumCandidates (geo : Geo) (cand : Point → Point) (dpPrev : Stage) :
    Stage :=
  dpPrev.foldl
    (fun nc e =>
      let prevPoint := e.1
      let prevDist := e.2.1
      let optimalPoint := cand prevPoint
      let legDistance := geo.dist prevPoint optimalPoint
      let totalDistance := prevDist + legDistance
      match lookupCand nc optimalPoint with
      | none => nc ++ [(optimalPoint, totalDistance, some prevPoint)]
      | some (d, _) =>
          if totalDistance < d then
            updateCand nc optimalPoint (totalDistance, some prevPoint)
          else nc)
    []

/-- The look-ahead centre used by `_process_dp_stage` at stage `i`:
`turnpoints[i+1].center` when a successor exists, else the current centre. -/
def nextCenterAt (tps : List TaskTurnpoint) (i : ℕ) : Point :=
  if i + 1 < tps.length then (tps.getD (i + 1) dummyTp).center
  else (tps.getD i dummyTp).center

/-- route_optimization._process_dp_stage, for the stage map `dpPrev = dp[i-1]`:
accumulate one candidate per predecessor and beam-prune the result. -/
def processDpStage (geo : Geo) (dpPrev : Stage) (i : ℕ)
    (tps : List TaskTurnpoint) (beamWidth : ℤ) : Stage :=
  let currentTp := tps.getD i dummyTp
  let nextCenter := nextCenterAt tps i
  beamPrune beamWidth
    (accumCandidates geo (fun prev => dpCandidate geo currentTp prev nextCenter)
      dpPrev)

/-- route_optimization._process_dp_stage_with_refined_target: identical to
`_process_dp_stage` except that a supplied `next_target` replaces the
successor centre and the goal-line branch is absent. -/
def processDpStageRefined (geo : Geo) (dpPrev : Stage) (i : ℕ)
    (tps : List TaskTurnpoint) (nextTarget : Option Point) (beamWidth : ℤ) :
    Stage :=
  let currentTp := tps.getD i dummyTp
  let nextCenter :=
    match nextTarget with
    | none => nextCenterAt tps i
    | some t => t
  beamPrune beamWidth
    (accumCandidates geo
      (fun prev => dpCandidateRefined geo currentTp prev nextCenter) dpPrev)

/-- The DP forward pass of `_compute_optimal_route_with_beam_search`:
`dp[0]` is the seeded singleton of `_init_dp_structure`, and
`dp[i] = _process_dp_stage(dp, i, ...)` for `i ≥ 1`. -/
def dpStages (geo : Geo) (tps : List TaskTurnpoint) (beamWidth : ℤ) :
    ℕ → Stage
  | 0 => [((tps.getD 0 dummyTp).center, 0, none)]
  | i + 1 => processDpStage geo (dpStages geo tps beamWidth i) (i + 1) tps
      beamWidth

/-- Python `min(items, key=lambda kv: kv[1][0])`: the first entry of minimal
total distance in iteration order. -/
def minCand (e : Point × ℚ × Option Point) (rest : Stage) :
    Point × ℚ × Option Point :=
  rest.foldl (fun b x => if x.2.1 < b.2.1 then x else b) e

/-- route_optimization._backtrack_path, descending phase: collect the current
point at stages `i, i-1, …, 0`, stepping to the stored parent while `i > 0`.
A missing key reads as `(inf, None)` in the defaultdict, hence the `Option`
propagation. -/
def backtrackAux (dpAt : ℕ → Stage) : ℕ → Option Point → List (Option Point)
  | 0, cur => [cur]
  | i + 1, cur =>
      cur :: backtrackAux dpAt i
        (cur.bind fun p => (lookupCand (dpAt (i + 1)) p).bind fun v => v.2)

/-- route_optimization._backtrack_path for `n` turnpoints (stages `n-1 … 0`):
the collected points, reversed. -/
def backtrackPath (dpAt : ℕ → Stage) (n : ℕ) (best : Point) :
    List (Option Point) :=
  (backtrackAux dpAt (n - 1) (some best)).reverse

/-- route_optimization._compute_optimal_route_with_beam_search: run the
forward pass, return `(0.0, [])` when the final stage is empty, otherwise the
minimal final entry's distance together with (when requested) the
back-traced route. -/
def computeOptimalRouteWithBeamSearch (geo : Geo) (tps : List TaskTurnpoint)
    (returnPath : Bool) (beamWidth : ℤ) : ℚ × List (Option Point) :=
  let dpAt := dpStages geo tps beamWidth
  match dpAt (tps.length - 1) with
  | [] => (0, [])
  | e :: rest =>
      let best := minCand e rest
      (best.2.1,
        if returnPath then backtrackPath dpAt tps.length best.1 else [])

/-- route_optimization._compute_optimal_route_dp: fewer than two turnpoints
short-circuits to distance 0 and the list of centres; otherwise delegate to
the beam search. -/
def computeOptimalRouteDp (geo : Geo) (tps : List TaskTurnpoint)
    (returnPath : Bool) (beamWidth : ℤ) : ℚ × List (Option Point) :=
  if tps.length < 2 then
    (0, if returnPath then tps.map (fun tp => some tp.center) else [])
  else computeOptimalRouteWithBeamSearch geo tps returnPath beamWidth

/-- route_optimization._create_refined_turnpoints: rebuild every turnpoint
from `(lat, lon, radius)` only, so `goal_type` and `goal_line_length` fall
back to the constructor defaults `None`; `previous_route` is unused. -/
def createRefinedTurnpoints (tps : List TaskTurnpoint)
    (_previousRoute : List (Option Point)) : List TaskTurnpoint :=
  tps.map fun tp => ⟨tp.center, tp.radius, none, none⟩

/-- The look-ahead target selection of
`_compute_optimal_route_with_refined_targets` at stage `i`: the previous
route's point `i+1` when both the turnpoint list and the previous route
extend beyond it, else the current turnpoint's centre. -/
def refinedTargetAt (tps : List TaskTurnpoint)
    (previousRoute : List (Option Point)) (i : ℕ) : Option Point :=
  if i < tps.length - 1 ∧ i < previousRoute.length - 1 then
    (previousRoute.getD (i + 1) none)
  else if i < tps.length then some (tps.getD i dummyTp).center
  else none

/-- The DP forward pass of `_compute_optimal_route_with_refined_targets`. -/
def dpStagesRefined (geo : Geo) (tps : List TaskTurnpoint)
    (previousRoute : List (Option Point)) (beamWidth : ℤ) : ℕ → Stage
  | 0 => [((tps.getD 0 dummyTp).center, 0, none)]
  | i + 1 => processDpStageRefined geo
      (dpStagesRefined geo tps previousRoute beamWidth i) (i + 1) tps
      (refinedTargetAt tps previousRoute (i + 1)) beamWidth

/-- route_optimization._compute_optimal_route_with_refined_targets: resolve
the configuration, run the refined forward pass, and always back-trace the
route. -/
def computeOptimalRouteWithRefinedTargets (geo : Geo)
    (tps : List TaskTurnpoint) (previousRoute : List (Option Point))
    (angleStep beamWidth : Option ℤ) : ℚ × List (Option Point) :=
  let config := getOptimizationConfig angleStep beamWidth none
  let dpAt := dpStagesRefined geo tps previousRoute config.beamWidth
  match dpAt (tps.length - 1) with
  | [] => (0, [])
  | e :: rest =>
      let best := minCand e rest
      (best.2.1, backtrackPath dpAt tps.length best.1)

/-- The refinement loop of `calculate_iteratively_refined_route`
(`for iteration in range(1, num_iterations)`): build refined turnpoints from
the current route, run the refined pass, keep the result only when it
strictly improves the best distance, and stop at the first non-improvement. -/
def refineLoop (geo : Geo) (tps : List TaskTurnpoint) (angleStep beamWidth : ℤ) :
    ℕ → ℚ → List (Option Point) → List (Option Point) →
      ℚ × List (Option Point)
  | 0, bestDistance, bestRoute, _ => (bestDistance, bestRoute)
  | fuel + 1, bestDistance, bestRoute, currentRoute =>
      let refined := createRefinedTurnpoints tps currentRoute
      let r := computeOptimalRouteWithRefinedTargets geo refined currentRoute
        (some angleStep) (some beamWidth)
      if r.1 < bestDistance then
        refineLoop geo tps angleStep beamWidth fuel r.1 r.2 r.2
      else (bestDistance, bestRoute)

/-- route_optimization.calculate_iteratively_refined_route: resolve the
configuration; fewer than two turnpoints short-circuits to distance 0 and
the list of centres; otherwise run the initial centre-look-ahead DP pass and
then the refinement loop. -/
def calculateIterativelyRefinedRoute (geo : Geo) (tps : List TaskTurnpoint)
    (numIterations angleStep beamWidth : Option ℤ) :
    ℚ × List (Option Point) :=
  let config := getOptimizationConfig angleStep beamWidth numIterations
  if tps.length < 2 then (0, tps.map (fun tp => some tp.center))
  else
    let init := computeOptimalRouteDp geo tps true config.beamWidth
    refineLoop geo tps config.angleStep config.beamWidth
      (config.numIterations - 1).toNat init.1 init.2 init.2

/- ---------------- distance.py ---------------- -/

/-- distance.optimized_distance: resolve the configuration and return the
distance component of `calculate_iteratively_refined_route`. -/
def optimized_distance (geo : Geo) (tps : List TaskTurnpoint)
    (angleStep beamWidth numIterations : Option ℤ) : ℚ :=
  let config := getOptimizationConfig angleStep beamWidth numIterations
  (calculateIterativelyRefinedRoute geo tps (some config.numIterations)
    (some config.angleStep) (some config.beamWidth)).1

/- ---------------- task.py (shapes consumed by the adapter) ---------------- -/

/-- task.TurnpointType. -/
inductive TurnpointType
  | NONE
  | TAKEOFF
  | SSS
  | ESS
deriving DecidableEq, Repr

/-- task.GoalType. -/
inductive GoalType
  | CYLINDER
  | LINE
deriving DecidableEq, Repr

/-- The `.value` string of a GoalType member. -/
def GoalType.value : GoalType → String
  | .CYLINDER => "CYLINDER"
  | .LINE => "LINE"

/-- task.Waypoint (the fields the adapter reads). -/
structure Waypoint where
  name : String
  lat : ℚ
  lon : ℚ
deriving DecidableEq, Repr

/-- task.Turnpoint: `radius` is a Python int. -/
structure TaskTp where
  radius : ℤ
  waypoint : Waypoint
  type : Option TurnpointType
deriving DecidableEq, Repr

/-- task.Goal. -/
structure Goal where
  type : Option GoalType
  lineLength : Option ℚ
deriving DecidableEq, Repr

/-- task.Task (the fields the adapter reads); named XCTask here because Lean
already has a core type called Task. -/
structure XCTask where
  turnpoints : List TaskTp
  goal : Option Goal
deriving DecidableEq, Repr

/-- Placeholder task turnpoint for out-of-range indexing. -/
def dummyTaskTp : TaskTp := ⟨0, ⟨"", 0, 0⟩, none⟩

/- ---------------- task_distances.py ---------------- -/

/-- The goal-type string computed at the top of `_task_to_turnpoints`:
`None` without turnpoints or without an explicit goal, else the goal's type
value with a "CYLINDER" fallback. -/
def taskGoalType (task : XCTask) : Option String :=
  match task.turnpoints, task.goal with
  | _ :: _, some g => some ((g.type.map GoalType.value).getD "CYLINDER")
  | _, _ => none

/-- The goal-line length computed at the top of `_task_to_turnpoints`: for a
LINE goal, the task-supplied value when present, else twice the last source
turnpoint's radius when the turnpoint list is non-empty. -/
def taskGoalLineLength (task : XCTask) : Option ℚ :=
  match task.turnpoints, task.goal with
  | _ :: _, some g =>
      if (g.type.map GoalType.value).getD "CYLINDER" = "LINE" then
        match g.lineLength with
        | some l => some l
        | none =>
            match task.turnpoints.getLast? with
            | some lastTp => some ((lastTp.radius : ℚ) * 2)
            | none => none
      else none
  | _, _ => none

/-- task_distances._task_to_turnpoints: transcribe every turnpoint; the last
one receives the goal type, and a LINE goal gets radius 0 together with the
resolved goal-line length (with the in-loop radius-derived fallback of the
source, which re-derives `2 * radius` when the length is still unset and the
radius is positive).  The source also scans for an ESS turnpoint and computes
`is_ess_goal`, but neither value is used afterwards, so that dead scan is
omitted here. -/
def taskToTurnpoints (task : XCTask) : List TaskTurnpoint :=
  let goalType := taskGoalType task
  let goalLineLength := taskGoalLineLength task
  let n := task.turnpoints.length
  task.turnpoints.enum.map fun e =>
    let i := e.1
    let tp := e.2
    if i = n - 1 then
      if goalType = some "LINE" then
        let gll :=
          if goalLineLength = none ∧ 0 < tp.radius then
            some ((tp.radius : ℚ) * 2)
          else goalLineLength
        ⟨(tp.waypoint.lat, tp.waypoint.lon), 0, goalType, gll⟩
      else
        ⟨(tp.waypoint.lat, tp.waypoint.lon), (tp.radius : ℚ), goalType, none⟩
    else ⟨(tp.waypoint.lat, tp.waypoint.lon), (tp.radius : ℚ), none, none⟩

/-- task_distances.calculate_cumulative_distances: `(0.0, 0.0)` at index 0 or
for lists of fewer than two turnpoints, else the centre-route and the
iteratively refined optimized distance of the partial list `turnpoints[:index+1]`,
both in kilometres (`num_iterations` is not forwarded to
`optimized_distance`, which therefore applies its default). -/
def calculateCumulativeDistances (geo : Geo) (tps : List TaskTurnpoint)
    (index : ℕ) (angleStep beamWidth : Option ℤ) : ℚ × ℚ :=
  if index = 0 ∨ tps.length ≤ 1 then (0, 0)
  else
    let config := getOptimizationConfig angleStep beamWidth none
    let headTps := tps.take (index + 1)
    let centerDist := distanceThroughCenters geo headTps / 1000
    let optDist :=
      optimized_distance geo headTps (some config.angleStep)
        (some config.beamWidth) none / 1000
    (centerDist, optDist)

/- ---------------- derived chain form of the forward pass ---------------- -/

/-- The single candidate chain the DP actually follows: stage 0 holds exactly
the seeded centre, and every stage derives exactly one candidate from each
predecessor, so a single path of points is threaded through the stages. -/
def chainPoint (geo : Geo) (tps : List TaskTurnpoint) : ℕ → Point
  | 0 => (tps.getD 0 dummyTp).center
  | i + 1 =>
      dpCandidate geo (tps.getD (i + 1) dummyTp) (chainPoint geo tps i)
        (nextCenterAt tps (i + 1))

/-- Cumulative distance along `chainPoint`. -/
def chainDist (geo : Geo) (tps : List TaskTurnpoint) : ℕ → ℚ
  | 0 => 0
  | i + 1 =>
      chainDist geo tps i +
        geo.dist (chainPoint geo tps i) (chainPoint geo tps (i + 1))

/-- The analogous chain for the refined-target forward pass. -/
def chainPointR (geo : Geo) (tps : List TaskTurnpoint)
    (previousRoute : List (Option Point)) : ℕ → Point
  | 0 => (tps.getD 0 dummyTp).center
  | i + 1 =>
      dpCandidateRefined geo (tps.getD (i + 1) dummyTp)
        (chainPointR geo tps previousRoute i)
        (match refinedTargetAt tps previousRoute (i + 1) with
         | none => nextCenterAt tps (i + 1)
         | some t => t)

/-- Cumulative distance along `chainPointR`. -/
def chainDistR (geo : Geo) (tps : List TaskTurnpoint)
    (previousRoute : List (Option Point)) : ℕ → ℚ
  | 0 => 0
  | i + 1 =>
      chainDistR geo tps previousRoute i +
        geo.dist (chainPointR geo tps previousRoute i)
          (chainPointR geo tps previousRoute (i + 1))

/-- The running prefix sums of the centre legs. -/
def legSum (geo : Geo) (tps : List TaskTurnpoint) : ℕ → ℚ
  | 0 => 0
  | i + 1 =>
      legSum geo tps i +
        geo.dist (tps.getD i dummyTp).center (tps.getD (i + 1) dummyTp).center

/-- The sequence of per-pass results of `calculate_iteratively_refined_route`:
pass 0 is the centre-look-ahead DP pass, and pass `k+1` is the refined pass
built from pass `k`'s route. -/
def passResult (geo : Geo) (tps : List TaskTurnpoint)
    (angleStep beamWidth : ℤ) : ℕ → ℚ × List (Option Point)
  | 0 => computeOptimalRouteDp geo tps true beamWidth
  | k + 1 =>
      computeOptimalRouteWithRefinedTargets geo
        (createRefinedTurnpoints tps
          (passResult geo tps angleStep beamWidth k).2)
        (passResult geo tps angleStep beamWidth k).2 (some angleStep)
        (some beamWidth)

/-- The documented contract of the geodesy kernel (spec sections 4.1 and 4.2):
the distance is a non-negative symmetric function obeying the triangle
inequality with zero self-distance; the cylinder optimizer returns a point
within the radius of the centre that minimises the two-leg sum over the
perimeter; a geodesic from a point at distance at least `r` from the centre
crosses the radius-`r` perimeter; and the goal-line point is no farther from
the approach point than the goal centre (the centre lies on the goal line,
and the source returns the perpendicular foot or the nearer endpoint). -/
structure GeoSpec (geo : Geo) : Prop where
  dist_self : ∀ p, geo.dist p p = 0
  dist_symm : ∀ p q, geo.dist p q = geo.dist q p
  dist_triangle : ∀ p q r, geo.dist p r ≤ geo.dist p q + geo.dist q r
  dist_nonneg : ∀ p q, 0 ≤ geo.dist p q
  optCyl_within : ∀ c r prev next, 0 ≤ r →
    geo.dist c (geo.optCyl c r prev next) ≤ r
  optCyl_min : ∀ c r prev next z, geo.dist c z = r →
    geo.dist prev (geo.optCyl c r prev next) +
      geo.dist (geo.optCyl c r prev next) next ≤
    geo.dist prev z + geo.dist z next
  crossing : ∀ a c r, 0 ≤ r → r ≤ geo.dist a c →
    ∃ z, geo.dist c z = r ∧ geo.dist a z + geo.dist z c ≤ geo.dist a c
  optLine_le : ∀ c l prev next,
    geo.dist prev (geo.optLine c l prev next) ≤ geo.dist prev c

/- ---------------- concrete instances for witnesses and
counterexamples ---------------- -/

/-- Degenerate kernel: every distance is zero and both optimizers return the
cylinder centre or the goal centre. -/
def zeroGeo : Geo :=
  ⟨fun _ _ => 0, fun c _ _ _ => c, fun c _ _ _ => c⟩

/-- A kernel with the L1 (taxicab) distance on coordinates; the cylinder
optimizer returns the perimeter point offset by the radius in the first
coordinate, which is at L1 distance exactly `r` from the centre. -/
def l1Geo : Geo :=
  ⟨fun p q => |p.1 - q.1| + |p.2 - q.2|,
   fun c r _ _ => (c.1 + r, c.2),
   fun _ _ prev _ => prev⟩

/-- A kernel whose distances are all zero and whose cylinder optimizer echoes
the previous point, so that distinct predecessors yield distinct tied
candidates. -/
def echoGeo : Geo :=
  ⟨fun _ _ => 0, fun _ _ prev _ => prev, fun _ _ prev _ => prev⟩

/-- Two zero-radius turnpoints a nonzero distance apart. -/
def tpsPair : List TaskTurnpoint :=
  [⟨(0, 0), 0, none, none⟩, ⟨(0, 1), 0, none, none⟩]

/-- Two turnpoints with coincident centres, the second a 1000 m cylinder:
the takeoff centre lies inside the final cylinder. -/
def tpsCoincident : List TaskTurnpoint :=
  [⟨(46, 7), 0, none, none⟩, ⟨(46, 7), 1000, none, none⟩]

/-- Two zero-radius turnpoints whose second is a goal line. -/
def tpsGoalLine : List TaskTurnpoint :=
  [⟨(0, 0), 0, none, none⟩, ⟨(0, 1), 0, some "LINE", some 100⟩]

/-- A two-turnpoint list whose second turnpoint is a unit cylinder, used to
exercise a DP stage with two predecessors. -/
def tpsBeam : List TaskTurnpoint :=
  [⟨(9, 9), 0, none, none⟩, ⟨(5, 5), 1, none, none⟩]

/-- A predecessor stage holding two candidate points with equal cumulative
distance, the lexicographically larger point inserted first. -/
def stageTie : Stage :=
  [((1, 0), 0, none), ((0, 0), 0, none)]

/-- Strict lexicographic order on (lat, lon) points. -/
def pointLexLt (p q : Point) : Prop :=
  p.1 < q.1 ∨ (p.1 = q.1 ∧ p.2 < q.2)

/-- A parsed task with a LINE goal, no task-level line length, and a single
turnpoint of radius 0. -/
def taskLineZero : XCTask :=
  ⟨[⟨0, ⟨"w", 1, 2⟩, none⟩], some ⟨some GoalType.LINE, none⟩⟩

/- ---------------- lemmas ---------------- -/

lemma accumCandidates_singleton (geo : Geo) (cand : Point → Point) (p : Point)
    (d : ℚ) (par : Option Point) :
    accumCandidates geo cand [(p, d, par)] =
      [(cand p, d + geo.dist p (cand p), some p)] := by
  simp [accumCandidates, lookupCand]

lemma beamPrune_singleton {beamWidth : ℤ} (h : 1 ≤ beamWidth)
    (e : Point × ℚ × Option Point) : beamPrune beamWidth [e] = [e] := by
  simp only [beamPrune, List.length_singleton, Nat.cast_one]
  rw [if_neg (by omega)]

lemma processDpStage_singleton (geo : Geo) {beamWidth : ℤ}
    (h : 1 ≤ beamWidth) (p : Point) (d : ℚ) (par : Option Point) (i : ℕ)
    (tps : List TaskTurnpoint) :
    processDpStage geo [(p, d, par)] i tps beamWidth =
      [(dpCandidate geo (tps.getD i dummyTp) p (nextCenterAt tps i),
        d + geo.dist p (dpCandidate geo (tps.getD i dummyTp) p
          (nextCenterAt tps i)),
        some p)] := by
  rw [processDpStage, accumCandidates_singleton, beamPrune_singleton h]

lemma dpStages_singleton (geo : Geo) (tps : List TaskTurnpoint)
    {beamWidth : ℤ} (h : 1 ≤ beamWidth) :
    ∀ i, dpStages geo tps beamWidth i =
      [(chainPoint geo tps i, chainDist geo tps i,
        if i = 0 then none else some (chainPoint geo tps (i - 1)))]
  | 0 => by simp [dpStages, chainPoint, chainDist]
  | i + 1 => by
      rw [dpStages, dpStages_singleton geo tps h i, processDpStage_singleton geo h]
      simp [chainPoint, chainDist]

lemma processDpStageRefined_singleton (geo : Geo) {beamWidth : ℤ}
    (h : 1 ≤ beamWidth) (p : Point) (d : ℚ) (par : Option Point) (i : ℕ)
    (tps : List TaskTurnpoint) (nextTarget : Option Point) :
    processDpStageRefined geo [(p, d, par)] i tps nextTarget beamWidth =
      [(dpCandidateRefined geo (tps.getD i dummyTp) p
          (match nextTarget with
           | none => nextCenterAt tps i
           | some t => t),
        d + geo.dist p (dpCandidateRefined geo (tps.getD i dummyTp) p
          (match nextTarget with
           | none => nextCenterAt tps i
           | some t => t)),
        some p)] := by
  simp only [processDpStageRefined]
  rw [accumCandidates_singleton, beamPrune_singleton h]

lemma dpStagesRefined_singleton (geo : Geo) (tps : List TaskTurnpoint)
    (previousRoute : List (Option Point)) {beamWidth : ℤ}
    (h : 1 ≤ beamWidth) :
    ∀ i, dpStagesRefined geo tps previousRoute beamWidth i =
      [(chainPointR geo tps previousRoute i, chainDistR geo tps previousRoute i,
        if i = 0 then none
        else some (chainPointR geo tps previousRoute (i - 1)))]
  | 0 => by simp [dpStagesRefined, chainPointR, chainDistR]
  | i + 1 => by
      rw [dpStagesRefined, dpStagesRefined_singleton geo tps previousRoute h i,
        processDpStageRefined_singleton geo h]
      simp [chainPointR, chainDistR]

lemma backtrackAux_chain (geo : Geo) (tps : List TaskTurnpoint)
    {beamWidth : ℤ} (h : 1 ≤ beamWidth) :
    ∀ i, backtrackAux (dpStages geo tps beamWidth) i
        (some (chainPoint geo tps i)) =
      (List.range (i + 1)).reverse.map (fun j => some (chainPoint geo tps j))
  | 0 => by simp [backtrackAux, List.range_succ]
  | i + 1 => by
      rw [backtrackAux, dpStages_singleton geo tps h (i + 1)]
      simp only [Option.some_bind, lookupCand, if_pos rfl, if_true,
        Nat.succ_ne_zero, if_false, Nat.add_sub_cancel]
      rw [backtrackAux_chain geo tps h i]
      simp [List.range_succ]

lemma backtrackPath_chain (geo : Geo) (tps : List TaskTurnpoint)
    {beamWidth : ℤ} (h : 1 ≤ beamWidth) {n : ℕ} (hn : 1 ≤ n) :
    backtrackPath (dpStages geo tps beamWidth) n
        (chainPoint geo tps (n - 1)) =
      (List.range n).map (fun j => some (chainPoint geo tps j)) := by
  rw [backtrackPath, backtrackAux_chain geo tps h, Nat.sub_add_cancel hn]
  rw [List.map_reverse, List.reverse_reverse]

lemma computeOptimalRouteWithBeamSearch_chain (geo : Geo)
    (tps : List TaskTurnpoint) (returnPath : Bool) {beamWidth : ℤ}
    (h : 1 ≤ beamWidth) :
    computeOptimalRouteWithBeamSearch geo tps returnPath beamWidth =
      (chainDist geo tps (tps.length - 1),
        if returnPath then
          backtrackPath (dpStages geo tps beamWidth) tps.length
            (chainPoint geo tps (tps.length - 1))
        else []) := by
  rw [computeOptimalRouteWithBeamSearch]
  simp only [dpStages_singleton geo tps h (tps.length - 1)]
  rfl

lemma backtrackAuxR_chain (geo : Geo) (tps : List TaskTurnpoint)
    (previousRoute : List (Option Point)) {beamWidth : ℤ}
    (h : 1 ≤ beamWidth) :
    ∀ i, backtrackAux (dpStagesRefined geo tps previousRoute beamWidth) i
        (some (chainPointR geo tps previousRoute i)) =
      (List.range (i + 1)).reverse.map
        (fun j => some (chainPointR geo tps previousRoute j))
  | 0 => by simp [backtrackAux, List.range_succ]
  | i + 1 => by
      rw [backtrackAux, dpStagesRefined_singleton geo tps previousRoute h (i + 1)]
      simp only [Option.some_bind, lookupCand, if_pos rfl, if_true,
        Nat.succ_ne_zero, if_false, Nat.add_sub_cancel]
      rw [backtrackAuxR_chain geo tps previousRoute h i]
      simp [List.range_succ]

lemma backtrackPathR_chain (geo : Geo) (tps : List TaskTurnpoint)
    (previousRoute : List (Option Point)) {beamWidth : ℤ}
    (h : 1 ≤ beamWidth) {n : ℕ} (hn : 1 ≤ n) :
    backtrackPath (dpStagesRefined geo tps previousRoute beamWidth) n
        (chainPointR geo tps previousRoute (n - 1)) =
      (List.range n).map (fun j => some (chainPointR geo tps previousRoute j)) := by
  rw [backtrackPath, backtrackAuxR_chain geo tps previousRoute h,
    Nat.sub_add_cancel hn]
  rw [List.map_reverse, List.reverse_reverse]

lemma computeOptimalRouteWithRefinedTargets_chain (geo : Geo)
    (tps : List TaskTurnpoint) (previousRoute : List (Option Point))
    (angleStep : Option ℤ) {beamWidth : Option ℤ}
    (h : 1 ≤ (getOptimizationConfig angleStep beamWidth none).beamWidth)
    (hn : 1 ≤ tps.length) :
    computeOptimalRouteWithRefinedTargets geo tps previousRoute angleStep
        beamWidth =
      (chainDistR geo tps previousRoute (tps.length - 1),
        (List.range tps.length).map
          (fun j => some (chainPointR geo tps previousRoute j))) := by
  rw [computeOptimalRouteWithRefinedTargets]
  simp only [dpStagesRefined_singleton geo tps previousRoute h (tps.length - 1)]
  rw [← backtrackPathR_chain geo tps previousRoute h hn]
  rfl

lemma distanceThroughCenters_foldl (geo : Geo) (tps : List TaskTurnpoint) :
    ∀ m, (List.range m).foldl
        (fun total i =>
          total + geo.dist (tps.getD i dummyTp).center
            (tps.getD (i + 1) dummyTp).center)
        0 = legSum geo tps m
  | 0 => rfl
  | m + 1 => by
      rw [List.range_succ, List.foldl_append,
        distanceThroughCenters_foldl geo tps m]
      rfl

lemma distanceThroughCenters_eq_legSum (geo : Geo)
    (tps : List TaskTurnpoint) (hn : 2 ≤ tps.length) :
    distanceThroughCenters geo tps = legSum geo tps (tps.length - 1) := by
  rw [distanceThroughCenters, if_neg (by omega),
    distanceThroughCenters_foldl geo tps]

lemma refineLoop_fst_le (geo : Geo) (tps : List TaskTurnpoint)
    (angleStep beamWidth : ℤ) :
    ∀ (fuel : ℕ) (bestDistance : ℚ) (bestRoute currentRoute : List (Option Point)),
      (refineLoop geo tps angleStep beamWidth fuel bestDistance bestRoute
        currentRoute).1 ≤ bestDistance
  | 0, _, _, _ => le_refl _
  | fuel + 1, bestDistance, bestRoute, currentRoute => by
      rw [refineLoop]
      split
      · exact le_of_lt (lt_of_le_of_lt
          (refineLoop_fst_le geo tps angleStep beamWidth fuel _ _ _)
          (by assumption))
      · exact le_refl _

lemma refineLoop_spec (geo : Geo) (tps : List TaskTurnpoint)
    (angleStep beamWidth : ℤ) :
    ∀ (fuel k : ℕ),
      ∃ m, k ≤ m ∧ m ≤ k + fuel ∧
        refineLoop geo tps angleStep beamWidth fuel
            (passResult geo tps angleStep beamWidth k).1
            (passResult geo tps angleStep beamWidth k).2
            (passResult geo tps angleStep beamWidth k).2 =
          passResult geo tps angleStep beamWidth m ∧
        (∀ j, k ≤ j → j < m →
          (passResult geo tps angleStep beamWidth (j + 1)).1 <
            (passResult geo tps angleStep beamWidth j).1) ∧
        (m < k + fuel →
          ¬ (passResult geo tps angleStep beamWidth (m + 1)).1 <
            (passResult geo tps angleStep beamWidth m).1)
  | 0, k => by
      refine ⟨k, le_refl k, by omega, ?_, ?_, ?_⟩
      · rw [refineLoop]
      · intro j h1 h2
        omega
      · intro hcontra
        omega
  | fuel + 1, k => by
      rw [refineLoop]
      by_cases himp :
          (passResult geo tps angleStep beamWidth (k + 1)).1 <
            (passResult geo tps angleStep beamWidth k).1
      · obtain ⟨m, hm1, hm2, hm3, hm4, hm5⟩ :=
          refineLoop_spec geo tps angleStep beamWidth fuel (k + 1)
        refine ⟨m, by omega, by omega, ?_, ?_, ?_⟩
        · rw [if_pos (by exact himp)]
          exact hm3
        · intro j h1 h2
          rcases Nat.eq_or_lt_of_le h1 with rfl | h1'
          · exact himp
          · exact hm4 j h1' h2
        · intro hmf
          exact hm5 (by omega)
      · refine ⟨k, le_refl k, by omega, ?_, ?_, ?_⟩
        · rw [if_neg (by exact himp)]
        · intro j h1 h2
          omega
        · intro _
          exact himp

lemma strict_chain_le (f : ℕ → ℚ) :
    ∀ m, (∀ j, j < m → f (j + 1) < f j) → ∀ j, j ≤ m → f m ≤ f j
  | 0, _, j, hj => by
      rw [Nat.le_zero.mp hj]
  | m + 1, h, j, hj => by
      rcases Nat.eq_or_lt_of_le hj with rfl | hj'
      · exact le_refl _
      · have h1 : f (m + 1) < f m := h m (Nat.lt_succ_self m)
        have h2 : f m ≤ f j :=
          strict_chain_le f m (fun j hj => h j (Nat.lt_succ_of_lt hj)) j
            (Nat.lt_succ_iff.mp hj')
        linarith

lemma optimized_distance_short (geo : Geo) (tps : List TaskTurnpoint)
    (angleStep beamWidth numIterations : Option ℤ) (h : tps.length < 2) :
    optimized_distance geo tps angleStep beamWidth numIterations = 0 := by
  rw [optimized_distance, calculateIterativelyRefinedRoute]
  simp [if_pos h]

lemma optimized_distance_resolve (geo : Geo) (tps : List TaskTurnpoint)
    (angleStep beamWidth numIterations : Option ℤ) :
    optimized_distance geo tps
        (some ((getOptimizationConfig angleStep beamWidth numIterations).angleStep))
        (some ((getOptimizationConfig angleStep beamWidth numIterations).beamWidth))
        (some ((getOptimizationConfig angleStep beamWidth numIterations).numIterations)) =
      optimized_distance geo tps angleStep beamWidth numIterations := by
  rw [optimized_distance, optimized_distance]
  simp [getOptimizationConfig]

/- ---------------- claim theorems ---------------- -/

/-- C3 counterexample: `optimize([])` does not raise `EmptyTurnpoints` (no
such exception exists anywhere in the package); the fewer-than-two-turnpoints
branch of `calculate_iteratively_refined_route` returns the ordinary value
`(0.0, [])` for the empty list. -/
theorem c3_counterexample :
    calculateIterativelyRefinedRoute zeroGeo [] none none none = (0, []) := by
  rfl

/-- C3 (amended): `optimize` never raises on degenerate inputs: on the empty
list it returns `(0.0, [])`, and on a single turnpoint `[T]` it returns
`(0.0, [T.centre])`. -/
theorem c3_degenerate (geo : Geo)
    (numIterations angleStep beamWidth : Option ℤ) (T : TaskTurnpoint) :
    calculateIterativelyRefinedRoute geo [] numIterations angleStep beamWidth
        = (0, []) ∧
      calculateIterativelyRefinedRoute geo [T] numIterations angleStep
        beamWidth = (0, [some T.center]) :=
  ⟨rfl, rfl⟩

/-- C7 counterexample: `get_optimization_config` accepts an out-of-range
configuration (`angle_step_deg = 200`, `beam_width = 0`, `iterations = 0`)
and returns it unchanged instead of raising `InvalidConfig` (no such
exception exists anywhere in the package). -/
theorem c7_counterexample :
    getOptimizationConfig (some 200) (some 0) (some 0) =
      ⟨200, 0, 0⟩ := by
  rfl

/-- C7 (amended): `get_optimization_config` performs no validation at all:
every supplied value is passed through unchanged, even outside the valid
ranges, and unsupplied fields receive the defaults 10 (angle step),
10 (beam width) and 5 (iterations). -/
theorem c7_config_defaults :
    getOptimizationConfig none none none = ⟨10, 10, 5⟩ ∧
      ∀ a b n : ℤ, getOptimizationConfig (some a) (some b) (some n) =
        ⟨a, b, n⟩ :=
  ⟨rfl, fun _ _ _ => rfl⟩

/-- C6: `calculate_cumulative_distances(ts, i)` returns `(0.0, 0.0)` at index
0, and otherwise the pair of the centre-route distance and the iteratively
refined optimized distance of the partial task `ts[0..i]`, both in
kilometres, at the same resolved configuration (with the default iteration
count, which the source does not forward). -/
theorem c6_cumulative_distances (geo : Geo) (tps : List TaskTurnpoint)
    (index : ℕ) (angleStep beamWidth : Option ℤ) :
    calculateCumulativeDistances geo tps index angleStep beamWidth =
      if index = 0 then (0, 0)
      else
        (distanceThroughCenters geo (tps.take (index + 1)) / 1000,
          optimized_distance geo (tps.take (index + 1)) angleStep beamWidth
            none / 1000) := by
  by_cases hi : index = 0
  · subst hi
    rw [calculateCumulativeDistances, if_pos (Or.inl rfl), if_pos rfl]
  · rw [if_neg hi, calculateCumulativeDistances]
    by_cases hlen : tps.length ≤ 1
    · rw [if_pos (Or.inr hlen)]
      have htake : (tps.take (index + 1)).length < 2 := by
        have := List.length_take (index + 1) tps
        omega
      rw [optimized_distance_short geo _ _ _ _ htake]
      rw [distanceThroughCenters, if_pos htake]
      norm_num
    · rw [if_neg (by tauto)]
      cases angleStep <;> cases beamWidth <;> rfl

lemma leTotal_trans : ∀ a b c : Point × ℚ × Option Point,
    leTotal a b → leTotal b c → leTotal a c := by
  intro a b c hab hbc
  simp only [leTotal, decide_eq_true_eq] at *
  exact le_trans hab hbc

lemma leTotal_total : ∀ a b : Point × ℚ × Option Point,
    leTotal a b || leTotal b a := by
  intro a b
  simp only [leTotal, Bool.or_eq_true, decide_eq_true_eq]
  exact le_total a.2.1 b.2.1

/-- C4 counterexample: a DP stage fed by two tied predecessors keeps, at beam
width 1, the entry that was inserted first (`(1, 0)`, coming from the first
predecessor in dict order), not the lexicographically smallest tied candidate
point (`(0, 0)`): ties are broken by dict insertion order, not by
lexicographic `(lat, lon)` order. -/
theorem c4_counterexample :
    processDpStage echoGeo stageTie 1 tpsBeam 2 =
      [((1, 0), 0, some (1, 0)), ((0, 0), 0, some (0, 0))] ∧
    processDpStage echoGeo stageTie 1 tpsBeam 1 =
      [((1, 0), 0, some (1, 0))] ∧
    pointLexLt (0, 0) (1, 0) ∧
    ((1, 0) : Point) ≠ (0, 0) := by
  have haccum : accumCandidates echoGeo
      (fun prev => dpCandidate echoGeo (tpsBeam.getD 1 dummyTp) prev
        (nextCenterAt tpsBeam 1)) stageTie =
      [((1, 0), 0, some (1, 0)), ((0, 0), 0, some (0, 0))] := by
    norm_num [accumCandidates, stageTie, dpCandidate, echoGeo, tpsBeam,
      dummyTp, nextCenterAt, lookupCand, TaskTurnpoint.optimalPoint,
      TaskTurnpoint.findOptimalGoalLinePoint]
  have hsorted : List.Pairwise (fun a b => leTotal a b = true)
      [(((1 : ℚ), (0 : ℚ)), (0 : ℚ), some ((1 : ℚ), (0 : ℚ))),
        (((0 : ℚ), (0 : ℚ)), (0 : ℚ), some ((0 : ℚ), (0 : ℚ)))] := by
    decide
  refine ⟨?_, ?_, ?_, by decide⟩
  · simp only [processDpStage]
    rw [haccum, beamPrune, if_neg (by decide)]
  · simp only [processDpStage]
    rw [haccum, beamPrune, if_pos (by decide),
      List.mergeSort_of_sorted hsorted]
    rfl
  · exact Or.inl (by norm_num)

/-- C4 (amended): whenever the candidate map exceeds the beam width `W ≥ 0`,
exactly `W` entries are kept, every kept entry's total distance is at most
every dropped entry's total distance, and the kept entries are the first `W`
entries of the stable ascending sort by total distance, so ties are broken by
the candidate map's insertion order (earlier-inserted entries retained), not
by lexicographic point order. -/
theorem c4_beam_pruning (beamWidth : ℤ) (st : Stage) (hW : 0 ≤ beamWidth)
    (hlen : beamWidth < (st.length : ℤ)) :
    (beamPrune beamWidth st).length = beamWidth.toNat ∧
    beamPrune beamWidth st = (st.mergeSort leTotal).take beamWidth.toNat ∧
    (∃ rest, st.Perm (beamPrune beamWidth st ++ rest) ∧
      ∀ x ∈ beamPrune beamWidth st, ∀ y ∈ rest, x.2.1 ≤ y.2.1) ∧
    (∀ a b, [a, b].Sublist st → a.2.1 ≤ b.2.1 →
      [a, b].Sublist (st.mergeSort leTotal)) := by
  have hBP : beamPrune beamWidth st =
      (st.mergeSort leTotal).take beamWidth.toNat := by
    rw [beamPrune, if_pos hlen]
  have hsort := @List.sorted_mergeSort _ leTotal leTotal_trans leTotal_total st
  refine ⟨?_, hBP, ?_, ?_⟩
  · rw [hBP, List.length_take, List.length_mergeSort]
    omega
  · refine ⟨(st.mergeSort leTotal).drop beamWidth.toNat, ?_, ?_⟩
    · rw [hBP, List.take_append_drop]
      exact (List.mergeSort_perm st leTotal).symm
    · intro x hx y hy
      rw [← List.take_append_drop beamWidth.toNat (st.mergeSort leTotal)]
        at hsort
      have h3 := (List.pairwise_append.mp hsort).2.2 x (by rw [hBP] at hx; exact hx) y hy
      simpa [leTotal] using h3
  · intro a b hab hle
    exact List.pair_sublist_mergeSort leTotal_trans leTotal_total
      (by simpa [leTotal] using hle) hab

/-- C4 witness: the amended pruning theorem applied to the tied two-entry
stage at beam width 1. -/
theorem c4_beam_pruning_witness :
    (beamPrune 1 stageTie).length = (1 : ℤ).toNat :=
  (c4_beam_pruning 1 stageTie (by decide) (by decide)).1

/-- C5 counterexample: for a task whose goal type is LINE with no task-level
line length and whose only (hence last) turnpoint has radius 0, the adapter
emits `goal_line_length = 0.0` (twice the zero radius) — not 400.0 — so the
produced GOAL_LINE turnpoint does not carry a positive line length. -/
theorem c5_counterexample :
    taskToTurnpoints taskLineZero = [⟨(1, 2), 0, some "LINE", some 0⟩] ∧
    ¬ (0 : ℚ) > 0 ∧ some (0 : ℚ) ≠ some (400 : ℚ) := by
  refine ⟨?_, by norm_num, by norm_num⟩
  norm_num [taskToTurnpoints, taskGoalType, taskGoalLineLength, taskLineZero,
    List.enum, GoalType.value]

/-- C5 (amended): for every parsed task with a LINE goal, the adapter's last
turnpoint has kind GOAL_LINE and radius 0, and its `line_length_m` is the
task-provided value when present, else `2 × last source radius` — which is
`0.0` when that radius is 0; the 400.0 m default is not applied by the
adapter (it lives downstream in `_find_optimal_goal_line_point` and fires
only when `goal_line_length` is `None`, which the adapter never leaves for a
LINE goal, as the second conjunct shows on the adapter's output). -/
theorem c5_goal_line_adapter (task : XCTask) (g : Goal) (lastTp : TaskTp)
    (hg : task.goal = some g) (ht : g.type = some GoalType.LINE)
    (hl : task.turnpoints.getLast? = some lastTp) :
    (taskToTurnpoints task).getLast? =
      some ⟨(lastTp.waypoint.lat, lastTp.waypoint.lon), 0, some "LINE",
        some (g.lineLength.getD ((lastTp.radius : ℚ) * 2))⟩ ∧
    ∀ (geo : Geo) (prev next : Point),
      TaskTurnpoint.findOptimalGoalLinePoint geo
          ⟨(lastTp.waypoint.lat, lastTp.waypoint.lon), 0, some "LINE",
            some (g.lineLength.getD ((lastTp.radius : ℚ) * 2))⟩ prev next =
        geo.optLine (lastTp.waypoint.lat, lastTp.waypoint.lon)
          (g.lineLength.getD ((lastTp.radius : ℚ) * 2)) prev next := by
  obtain ⟨ttps, tgoal⟩ := task
  simp only at hg hl ⊢
  subst hg
  obtain ⟨hd, tl, rfl⟩ :=
    List.exists_cons_of_ne_nil (l := ttps) (by
      intro h
      rw [h] at hl
      simp [List.getLast?] at hl)
  have hGT : taskGoalType ⟨hd :: tl, some g⟩ = some "LINE" := by
    simp [taskGoalType, ht, GoalType.value]
  have hGLL : taskGoalLineLength ⟨hd :: tl, some g⟩ =
      some (g.lineLength.getD ((lastTp.radius : ℚ) * 2)) := by
    cases hL : g.lineLength with
    | some L => simp [taskGoalLineLength, ht, GoalType.value, hL]
    | none => simp [taskGoalLineLength, ht, GoalType.value, hL, hl]
  refine ⟨?_, fun geo prev next => rfl⟩
  rw [List.getLast?_eq_getElem?]
  simp only [taskToTurnpoints]
  rw [List.length_map, List.enum_length, List.getElem?_map,
    List.getElem?_enum]
  have hidx : (hd :: tl)[(hd :: tl).length - 1]? = some lastTp := by
    rw [← List.getLast?_eq_getElem?]
    exact hl
  rw [hidx]
  simp [hGT, hGLL]

/-- C5 witness: the amended adapter theorem applied to the concrete LINE-goal
task with a zero-radius last turnpoint. -/
theorem c5_goal_line_adapter_witness :
    (taskToTurnpoints taskLineZero).getLast? =
      some ⟨(1, 2), 0, some "LINE", some (((0 : ℤ) : ℚ) * 2)⟩ :=
  (c5_goal_line_adapter taskLineZero ⟨some GoalType.LINE, none⟩
    ⟨0, ⟨"w", 1, 2⟩, none⟩ rfl rfl rfl).1

lemma range_map_getLast? {α : Type} (f : ℕ → α) (n : ℕ) (h : 1 ≤ n) :
    ((List.range n).map f).getLast? = some (f (n - 1)) := by
  rw [List.getLast?_eq_getElem?, List.length_map, List.length_range,
    List.getElem?_map, List.getElem?_range (by omega)]
  rfl

/-- C10: with at least two turnpoints and beam width at least 1, every DP
stage of the forward pass holds exactly one candidate entry (in particular at
most beam_width many and never zero), the final stage is non-empty, and the
beam search returns the minimal final entry with its back-traced route — the
empty-final-candidates branch returning `(0.0, [])` is unreachable. -/
theorem c10_dp_stages_nonempty (geo : Geo) (tps : List TaskTurnpoint)
    (beamWidth : ℤ) (hn : 2 ≤ tps.length) (hW : 1 ≤ beamWidth) :
    (∀ i, (dpStages geo tps beamWidth i).length = 1) ∧
    (∀ i, ((dpStages geo tps beamWidth i).length : ℤ) ≤ beamWidth) ∧
    dpStages geo tps beamWidth (tps.length - 1) ≠ [] ∧
    computeOptimalRouteWithBeamSearch geo tps true beamWidth =
      (chainDist geo tps (tps.length - 1),
        (List.range tps.length).map (fun j => some (chainPoint geo tps j))) := by
  have hs := dpStages_singleton geo tps hW
  refine ⟨fun i => by rw [hs i]; rfl,
    fun i => by rw [hs i]; simpa using hW,
    by rw [hs]; simp, ?_⟩
  rw [computeOptimalRouteWithBeamSearch_chain geo tps true hW]
  rw [backtrackPath_chain geo tps hW (by omega)]
  simp

/-- C10 witness: the stage-occupancy theorem applied to a concrete
two-turnpoint task at beam width 1. -/
theorem c10_dp_stages_nonempty_witness :
    dpStages zeroGeo tpsPair 1 (tpsPair.length - 1) ≠ [] :=
  (c10_dp_stages_nonempty zeroGeo tpsPair 1 (by decide) (by decide)).2.2.1

lemma createRefinedTurnpoints_getD (tps : List TaskTurnpoint)
    (previousRoute : List (Option Point)) (i : ℕ) (hi : i < tps.length) :
    (createRefinedTurnpoints tps previousRoute).getD i dummyTp =
      ⟨(tps.getD i dummyTp).center, (tps.getD i dummyTp).radius, none,
        none⟩ := by
  rw [createRefinedTurnpoints]
  rw [List.getD_eq_getElem?_getD, List.getElem?_map,
    List.getElem?_eq_getElem hi]
  rw [List.getD_eq_getElem?_getD, List.getElem?_eq_getElem hi]
  rfl

/-- C9: `_create_refined_turnpoints` keeps every turnpoint's centre and
radius but resets `goal_type` and `goal_line_length` to `None`; consequently
a refined pass over a task whose last turnpoint has radius 0 (as the adapter
gives every GOAL_LINE terminal) treats that terminal as a zero-radius
cylinder and its back-traced route ends exactly at the goal centre. -/
theorem c9_refined_turnpoints (geo : Geo) (tps : List TaskTurnpoint)
    (previousRoute previousRoute2 : List (Option Point))
    (angleStep beamWidth : Option ℤ) (hn : 2 ≤ tps.length)
    (hlast : (tps.getD (tps.length - 1) dummyTp).radius = 0)
    (hW : 1 ≤ (getOptimizationConfig angleStep beamWidth none).beamWidth) :
    (∀ i < tps.length,
      (createRefinedTurnpoints tps previousRoute).getD i dummyTp =
        ⟨(tps.getD i dummyTp).center, (tps.getD i dummyTp).radius, none,
          none⟩) ∧
    (computeOptimalRouteWithRefinedTargets geo
        (createRefinedTurnpoints tps previousRoute) previousRoute2 angleStep
        beamWidth).2.getLast? =
      some (some ((tps.getD (tps.length - 1) dummyTp).center)) := by
  refine ⟨fun i hi => createRefinedTurnpoints_getD tps previousRoute i hi, ?_⟩
  have hlen : (createRefinedTurnpoints tps previousRoute).length =
      tps.length := by
    rw [createRefinedTurnpoints, List.length_map]
  rw [computeOptimalRouteWithRefinedTargets_chain geo _ previousRoute2
    angleStep hW (by omega)]
  simp only [hlen]
  rw [range_map_getLast? _ _ (by omega)]
  obtain ⟨k, hk⟩ : ∃ k, tps.length - 1 = k + 1 := ⟨tps.length - 2, by omega⟩
  rw [hk, chainPointR]
  rw [hk] at hlast
  rw [createRefinedTurnpoints_getD tps previousRoute (k + 1) (by omega)]
  rw [dpCandidateRefined, if_pos hlast]

/-- C9 witness: the refined-turnpoints theorem applied to a concrete
two-turnpoint task whose terminal is a zero-radius goal line. -/
theorem c9_refined_turnpoints_witness :
    (computeOptimalRouteWithRefinedTargets zeroGeo
        (createRefinedTurnpoints tpsGoalLine []) [] none none).2.getLast? =
      some (some ((tpsGoalLine.getD (tpsGoalLine.length - 1)
        dummyTp).center)) :=
  (c9_refined_turnpoints zeroGeo tpsGoalLine [] [] none none (by decide)
    (by decide) (by decide)).2

lemma getD_mem_of_lt (tps : List TaskTurnpoint) {i : ℕ}
    (hi : i < tps.length) : tps.getD i dummyTp ∈ tps := by
  rw [List.getD_eq_getElem?_getD, List.getElem?_eq_getElem hi]
  exact List.getElem_mem hi

lemma chainPoint_center (geo : Geo) (tps : List TaskTurnpoint)
    (hrad : ∀ tp ∈ tps, tp.radius = 0 ∧ tp.goal_type ≠ some "LINE") :
    ∀ i, i < tps.length →
      chainPoint geo tps i = (tps.getD i dummyTp).center
  | 0, _ => rfl
  | i + 1, hi => by
      have hmem := getD_mem_of_lt tps hi
      obtain ⟨hr, hg⟩ := hrad _ hmem
      rw [chainPoint, dpCandidate, if_neg hg, if_pos hr]

lemma chainDist_legSum (geo : Geo) (tps : List TaskTurnpoint)
    (hrad : ∀ tp ∈ tps, tp.radius = 0 ∧ tp.goal_type ≠ some "LINE") :
    ∀ i, i < tps.length → chainDist geo tps i = legSum geo tps i
  | 0, _ => rfl
  | i + 1, hi => by
      rw [chainDist, legSum, chainDist_legSum geo tps hrad i (by omega),
        chainPoint_center geo tps hrad i (by omega),
        chainPoint_center geo tps hrad (i + 1) hi]

lemma chainPointR_center (geo : Geo) (tps : List TaskTurnpoint)
    (r1 r2 : List (Option Point)) (hrad : ∀ tp ∈ tps, tp.radius = 0) :
    ∀ i, i < tps.length →
      chainPointR geo (createRefinedTurnpoints tps r1) r2 i =
        (tps.getD i dummyTp).center
  | 0, hi => by
      rw [chainPointR, createRefinedTurnpoints_getD tps r1 0 hi]
  | i + 1, hi => by
      have hr := hrad _ (getD_mem_of_lt tps hi)
      rw [chainPointR, createRefinedTurnpoints_getD tps r1 (i + 1) hi,
        dpCandidateRefined, if_pos hr]

lemma chainDistR_legSum (geo : Geo) (tps : List TaskTurnpoint)
    (r1 r2 : List (Option Point)) (hrad : ∀ tp ∈ tps, tp.radius = 0) :
    ∀ i, i < tps.length →
      chainDistR geo (createRefinedTurnpoints tps r1) r2 i =
        legSum geo tps i
  | 0, _ => rfl
  | i + 1, hi => by
      rw [chainDistR, legSum,
        chainDistR_legSum geo tps r1 r2 hrad i (by omega),
        chainPointR_center geo tps r1 r2 hrad i (by omega),
        chainPointR_center geo tps r1 r2 hrad (i + 1) hi]

lemma range_map_center (tps : List TaskTurnpoint) :
    (List.range tps.length).map (fun j => some (tps.getD j dummyTp).center) =
      tps.map (fun tp => some tp.center) := by
  apply List.ext_getElem (by simp)
  intro i h1 h2
  simp only [List.getElem_map, List.getElem_range]
  rw [List.getD_eq_getElem?_getD,
    List.getElem?_eq_getElem (by simpa using h2)]
  rfl

lemma refined_pass_zero_pair (geo : Geo) (tps : List TaskTurnpoint)
    (r1 r2 : List (Option Point)) (angleStep beamWidth : Option ℤ)
    (hrad : ∀ tp ∈ tps, tp.radius = 0)
    (hW : 1 ≤ (getOptimizationConfig angleStep beamWidth none).beamWidth)
    (hn : 2 ≤ tps.length) :
    computeOptimalRouteWithRefinedTargets geo
        (createRefinedTurnpoints tps r1) r2 angleStep beamWidth =
      (legSum geo tps (tps.length - 1),
        tps.map (fun tp => some tp.center)) := by
  have hlen : (createRefinedTurnpoints tps r1).length = tps.length := by
    rw [createRefinedTurnpoints, List.length_map]
  rw [computeOptimalRouteWithRefinedTargets_chain geo _ r2 angleStep hW
    (by omega)]
  simp only [hlen]
  rw [chainDistR_legSum geo tps r1 r2 hrad (tps.length - 1) (by omega)]
  rw [← range_map_center tps]
  exact congrArg _ (List.map_congr_left fun j hj => by
    rw [chainPointR_center geo tps r1 r2 hrad j (List.mem_range.mp hj)])

lemma refineLoop_const (geo : Geo) (tps : List TaskTurnpoint)
    (angleStep beamWidth : ℤ) (d : ℚ) (bestRoute : List (Option Point))
    (h : ∀ cur, (computeOptimalRouteWithRefinedTargets geo
      (createRefinedTurnpoints tps cur) cur (some angleStep)
      (some beamWidth)).1 = d) :
    ∀ (fuel : ℕ) (cur : List (Option Point)),
      refineLoop geo tps angleStep beamWidth fuel d bestRoute cur =
        (d, bestRoute)
  | 0, _ => rfl
  | fuel + 1, cur => by
      rw [refineLoop, if_neg (by rw [h cur]; exact lt_irrefl d)]

lemma dpCandidate_eq (geo : Geo) (tp : TaskTurnpoint) (prev next : Point) :
    dpCandidate geo tp prev next =
      if tp.goal_type = some "LINE" then
        tp.findOptimalGoalLinePoint geo prev next
      else if tp.radius = 0 then tp.center
      else geo.optCyl tp.center tp.radius prev next := by
  by_cases h1 : tp.goal_type = some "LINE" <;>
    by_cases h2 : tp.radius = 0 <;>
      simp [dpCandidate, TaskTurnpoint.optimalPoint, h1, h2]

lemma chainPoint_center_front (geo : Geo) (tps : List TaskTurnpoint)
    (hrad : ∀ tp ∈ tps, tp.radius = 0)
    (hline : ∀ i < tps.length - 1,
      (tps.getD i dummyTp).goal_type ≠ some "LINE") :
    ∀ i, i < tps.length - 1 →
      chainPoint geo tps i = (tps.getD i dummyTp).center
  | 0, _ => rfl
  | i + 1, hi => by
      have hmem : tps.getD (i + 1) dummyTp ∈ tps :=
        getD_mem_of_lt tps (by omega)
      rw [chainPoint, dpCandidate, if_neg (hline (i + 1) hi),
        if_pos (hrad _ hmem)]

lemma chainDist_legSum_front (geo : Geo) (tps : List TaskTurnpoint)
    (hrad : ∀ tp ∈ tps, tp.radius = 0)
    (hline : ∀ i < tps.length - 1,
      (tps.getD i dummyTp).goal_type ≠ some "LINE") :
    ∀ i, i < tps.length - 1 → chainDist geo tps i = legSum geo tps i
  | 0, _ => rfl
  | i + 1, hi => by
      rw [chainDist, legSum,
        chainDist_legSum_front geo tps hrad hline i (by omega),
        chainPoint_center_front geo tps hrad hline i (by omega),
        chainPoint_center_front geo tps hrad hline (i + 1) hi]

lemma refineLoop_step (geo : Geo) (tps : List TaskTurnpoint)
    (angleStep beamWidth : ℤ) (fuel : ℕ) (d : ℚ)
    (bestRoute currentRoute : List (Option Point)) :
    refineLoop geo tps angleStep beamWidth (fuel + 1) d bestRoute
        currentRoute =
      if (computeOptimalRouteWithRefinedTargets geo
          (createRefinedTurnpoints tps currentRoute) currentRoute
          (some angleStep) (some beamWidth)).1 < d then
        refineLoop geo tps angleStep beamWidth fuel
          (computeOptimalRouteWithRefinedTargets geo
            (createRefinedTurnpoints tps currentRoute) currentRoute
            (some angleStep) (some beamWidth)).1
          (computeOptimalRouteWithRefinedTargets geo
            (createRefinedTurnpoints tps currentRoute) currentRoute
            (some angleStep) (some beamWidth)).2
          (computeOptimalRouteWithRefinedTargets geo
            (createRefinedTurnpoints tps currentRoute) currentRoute
            (some angleStep) (some beamWidth)).2
      else (d, bestRoute) := rfl

/-- C8: for every kernel whose goal-line point lies no nearer to the
approach point than the goal centre (the goal line is the chord through the
centre perpendicular to the approach, so the centre is its unique nearest
point), for every turnpoint list of the data model (goal lines only at the
terminal position) in which every radius is set to 0, and with beam width at
least 1 and at least two iterations (the defaults are 10 and 5), `optimize`
collapses to `centre_distance`: the optimized distance equals
`distance_through_centers` and the returned route is the list of centres.
When pass 0 ends on the goal line farther out than the centre, the first
refinement pass — which sees a plain zero-radius cylinder — produces the
exact centre route and is accepted as the improvement. -/
theorem c8_zero_radius_collapse (geo : Geo) (tps : List TaskTurnpoint)
    (numIterations angleStep beamWidth : Option ℤ)
    (hrad : ∀ tp ∈ tps, tp.radius = 0)
    (hline : ∀ i < tps.length - 1,
      (tps.getD i dummyTp).goal_type ≠ some "LINE")
    (hnear : ∀ c l prev next,
      geo.dist prev c ≤ geo.dist prev (geo.optLine c l prev next))
    (huniq : ∀ c l prev next,
      geo.dist prev (geo.optLine c l prev next) = geo.dist prev c →
        geo.optLine c l prev next = c)
    (hW : 1 ≤ (getOptimizationConfig angleStep beamWidth
      numIterations).beamWidth)
    (hN : 2 ≤ (getOptimizationConfig angleStep beamWidth
      numIterations).numIterations) :
    calculateIterativelyRefinedRoute geo tps numIterations angleStep
        beamWidth =
      (distanceThroughCenters geo tps, tps.map (fun tp => some tp.center)) := by
  by_cases hn : tps.length < 2
  · simp only [calculateIterativelyRefinedRoute]
    rw [if_pos hn, distanceThroughCenters, if_pos hn]
  · have hn2 : 2 ≤ tps.length := by omega
    have hpass : ∀ cur, computeOptimalRouteWithRefinedTargets geo
        (createRefinedTurnpoints tps cur) cur
        (some (getOptimizationConfig angleStep beamWidth
          numIterations).angleStep)
        (some (getOptimizationConfig angleStep beamWidth
          numIterations).beamWidth) =
        (legSum geo tps (tps.length - 1),
          tps.map (fun tp => some tp.center)) := by
      intro cur
      apply refined_pass_zero_pair geo tps cur cur _ _ hrad _ hn2
      simpa [getOptimizationConfig] using hW
    have hpass1 : ∀ cur, (computeOptimalRouteWithRefinedTargets geo
        (createRefinedTurnpoints tps cur) cur
        (some (getOptimizationConfig angleStep beamWidth
          numIterations).angleStep)
        (some (getOptimizationConfig angleStep beamWidth
          numIterations).beamWidth)).1 =
        legSum geo tps (tps.length - 1) := fun cur => by rw [hpass cur]
    simp only [calculateIterativelyRefinedRoute]
    rw [if_neg hn]
    rw [computeOptimalRouteDp, if_neg hn]
    rw [computeOptimalRouteWithBeamSearch_chain geo tps true hW]
    rw [backtrackPath_chain geo tps hW (by omega)]
    simp only [if_true]
    rw [distanceThroughCenters_eq_legSum geo tps hn2]
    by_cases hterm : (tps.getD (tps.length - 1) dummyTp).goal_type =
        some "LINE"
    · -- goal-LINE terminal: pass 0 may end on the line; the refinement
      -- pass repairs it (or the pass-0 point was already the centre)
      obtain ⟨k, hk⟩ : ∃ k, tps.length - 1 = k + 1 := ⟨tps.length - 2, by omega⟩
      obtain ⟨f, hf⟩ : ∃ f, ((getOptimizationConfig angleStep beamWidth
          numIterations).numIterations - 1).toNat = f + 1 :=
        ⟨((getOptimizationConfig angleStep beamWidth
          numIterations).numIterations - 2).toNat, by omega⟩
      have hterm' : (tps.getD (k + 1) dummyTp).goal_type = some "LINE" := by
        rw [← hk]
        exact hterm
      have hpK : chainPoint geo tps (k + 1) =
          geo.optLine ((tps.getD (k + 1) dummyTp).center)
            (((tps.getD (k + 1) dummyTp).goal_line_length).getD 400)
            ((tps.getD k dummyTp).center)
            ((tps.getD (k + 1) dummyTp).center) := by
        rw [chainPoint, dpCandidate_eq, if_pos hterm',
          chainPoint_center_front geo tps hrad hline k (by omega),
          nextCenterAt, if_neg (by omega)]
        rw [TaskTurnpoint.findOptimalGoalLinePoint]
      have hd0 : chainDist geo tps (k + 1) = legSum geo tps k +
          geo.dist ((tps.getD k dummyTp).center)
            (chainPoint geo tps (k + 1)) := by
        rw [chainDist, chainDist_legSum_front geo tps hrad hline k (by omega),
          chainPoint_center_front geo tps hrad hline k (by omega)]
      have hD : legSum geo tps (k + 1) = legSum geo tps k +
          geo.dist ((tps.getD k dummyTp).center)
            ((tps.getD (k + 1) dummyTp).center) := by
        rw [legSum]
      have hge : geo.dist ((tps.getD k dummyTp).center)
          ((tps.getD (k + 1) dummyTp).center) ≤
          geo.dist ((tps.getD k dummyTp).center)
            (chainPoint geo tps (k + 1)) := by
        rw [hpK]
        exact hnear _ _ _ _
      have hpass2 : ∀ cur, (computeOptimalRouteWithRefinedTargets geo
          (createRefinedTurnpoints tps cur) cur
          (some (getOptimizationConfig angleStep beamWidth
            numIterations).angleStep)
          (some (getOptimizationConfig angleStep beamWidth
            numIterations).beamWidth)).2 =
          tps.map (fun tp => some tp.center) := fun cur => by rw [hpass cur]
      rw [hk] at hpass1
      rw [hk, hf]
      rw [refineLoop_step, hpass1 _, hpass2 _]
      by_cases hlt : legSum geo tps (k + 1) < chainDist geo tps (k + 1)
      · rw [if_pos hlt]
        exact refineLoop_const geo tps _ _ _ _ hpass1 f _
      · rw [if_neg hlt]
        have heq : chainDist geo tps (k + 1) = legSum geo tps (k + 1) :=
          le_antisymm (not_lt.mp hlt) (by rw [hd0, hD]; linarith)
        have hpe : chainPoint geo tps (k + 1) =
            (tps.getD (k + 1) dummyTp).center := by
          have hdisteq : geo.dist ((tps.getD k dummyTp).center)
              (chainPoint geo tps (k + 1)) =
              geo.dist ((tps.getD k dummyTp).center)
                ((tps.getD (k + 1) dummyTp).center) := by
            rw [hd0, hD] at heq
            linarith
          rw [hpK] at hdisteq ⊢
          exact huniq _ _ _ _ hdisteq
        have hroute : (List.range tps.length).map
            (fun j => some (chainPoint geo tps j)) =
            tps.map (fun tp => some tp.center) := by
          rw [← range_map_center tps]
          apply List.map_congr_left
          intro j hj
          have hj' := List.mem_range.mp hj
          rcases Nat.lt_or_ge j (tps.length - 1) with hjf | hjl
          · rw [chainPoint_center_front geo tps hrad hline j hjf]
          · have hje : j = k + 1 := by omega
            rw [hje, hpe]
        rw [heq, hroute]
    · -- no goal line anywhere: the chain is exactly the centres
      have hcomb : ∀ tp ∈ tps, tp.radius = 0 ∧
          tp.goal_type ≠ some "LINE" := by
        intro tp htp
        refine ⟨hrad tp htp, ?_⟩
        obtain ⟨i, hi, heq⟩ := List.mem_iff_getElem.mp htp
        have hgetD : tps.getD i dummyTp = tp := by
          rw [List.getD_eq_getElem?_getD, List.getElem?_eq_getElem hi,
            Option.getD_some, heq]
        rcases Nat.lt_or_ge i (tps.length - 1) with hi' | hi'
        · rw [← hgetD]
          exact hline i hi'
        · have hie : i = tps.length - 1 := by omega
          rw [← hgetD, hie]
          exact hterm
      have hroute : (List.range tps.length).map
          (fun j => some (chainPoint geo tps j)) =
          tps.map (fun tp => some tp.center) := by
        rw [← range_map_center tps]
        apply List.map_congr_left
        intro j hj
        rw [chainPoint_center geo tps hcomb j (List.mem_range.mp hj)]
      rw [chainDist_legSum geo tps hcomb (tps.length - 1) (by omega), hroute]
      exact refineLoop_const geo tps _ _ _ _ hpass1 _ _

/-- C8 witness: the zero-radius collapse applied to a concrete two-turnpoint
task whose terminal is a zero-radius goal line. -/
theorem c8_zero_radius_collapse_witness :
    calculateIterativelyRefinedRoute zeroGeo tpsGoalLine none none none =
      (distanceThroughCenters zeroGeo tpsGoalLine,
        tpsGoalLine.map (fun tp => some tp.center)) :=
  c8_zero_radius_collapse zeroGeo tpsGoalLine none none none (by decide)
    (by decide) (fun _ _ _ _ => le_refl 0) (fun _ _ _ _ _ => rfl)
    (by decide) (by decide)

lemma refineLoop_stop (geo : Geo) (tps : List TaskTurnpoint)
    (angleStep beamWidth : ℤ) (d : ℚ) (bestRoute : List (Option Point))
    (h : ∀ cur, ¬ (computeOptimalRouteWithRefinedTargets geo
      (createRefinedTurnpoints tps cur) cur (some angleStep)
      (some beamWidth)).1 < d) :
    ∀ (fuel : ℕ) (cur : List (Option Point)),
      refineLoop geo tps angleStep beamWidth fuel d bestRoute cur =
        (d, bestRoute)
  | 0, _ => rfl
  | fuel + 1, cur => by
      rw [refineLoop, if_neg (h cur)]

/-- C2: with at least two turnpoints and at least one iteration,
`calculate_iteratively_refined_route` returns the `(distance, route)` pair of
some performed pass `m` within the iteration bound; every pass up to `m`
strictly improved on its predecessor (so the best seen is the most recent);
if a further pass was performed it did not improve, which is exactly the
early stop; and the returned distance is the minimum over the performed
passes — in particular at most the first pass's distance `d_0` — with the
returned route the one recorded together with that distance. -/
theorem c2_iterative_refinement (geo : Geo) (tps : List TaskTurnpoint)
    (numIterations angleStep beamWidth : Option ℤ) (cfg : OptConfig)
    (hcfg : getOptimizationConfig angleStep beamWidth numIterations = cfg)
    (hn : 2 ≤ tps.length) (hN : 1 ≤ cfg.numIterations) :
    ∃ m : ℕ,
      calculateIterativelyRefinedRoute geo tps numIterations angleStep
          beamWidth =
        passResult geo tps cfg.angleStep cfg.beamWidth m ∧
      (m : ℤ) < cfg.numIterations ∧
      (∀ j, j < m →
        (passResult geo tps cfg.angleStep cfg.beamWidth (j + 1)).1 <
          (passResult geo tps cfg.angleStep cfg.beamWidth j).1) ∧
      ((m : ℤ) + 1 < cfg.numIterations →
        ¬ (passResult geo tps cfg.angleStep cfg.beamWidth (m + 1)).1 <
          (passResult geo tps cfg.angleStep cfg.beamWidth m).1) ∧
      (∀ j, j ≤ m →
        (passResult geo tps cfg.angleStep cfg.beamWidth m).1 ≤
          (passResult geo tps cfg.angleStep cfg.beamWidth j).1) := by
  subst hcfg
  obtain ⟨m, hm1, hm2, hm3, hm4, hm5⟩ :=
    refineLoop_spec geo tps
      (getOptimizationConfig angleStep beamWidth numIterations).angleStep
      (getOptimizationConfig angleStep beamWidth numIterations).beamWidth
      ((getOptimizationConfig angleStep beamWidth
        numIterations).numIterations - 1).toNat 0
  refine ⟨m, ?_, by omega, fun j hj => hm4 j (Nat.zero_le j) hj, ?_, ?_⟩
  · simp only [calculateIterativelyRefinedRoute]
    rw [if_neg (by omega)]
    exact hm3
  · intro hlt
    exact hm5 (by omega)
  · intro j hj
    exact strict_chain_le
      (fun k => (passResult geo tps
        (getOptimizationConfig angleStep beamWidth numIterations).angleStep
        (getOptimizationConfig angleStep beamWidth
          numIterations).beamWidth k).1)
      m (fun i hi => hm4 i (Nat.zero_le i) hi) j hj

/-- C2 witness: the refinement theorem applied to a concrete two-turnpoint
task with the default configuration; the returned distance is at most the
first pass's distance. -/
theorem c2_iterative_refinement_witness :
    (calculateIterativelyRefinedRoute zeroGeo tpsPair none none none).1 ≤
      (passResult zeroGeo tpsPair 10 10 0).1 := by
  obtain ⟨m, h1, _, _, _, h5⟩ :=
    c2_iterative_refinement zeroGeo tpsPair none none none ⟨10, 10, 5⟩ rfl
      (by decide) (by decide)
  rw [h1]
  exact h5 0 (Nat.zero_le m)

lemma chain_invariant (geo : Geo) (hgeo : GeoSpec geo)
    (tps : List TaskTurnpoint)
    (hrad : ∀ i < tps.length, 0 ≤ (tps.getD i dummyTp).radius)
    (hsep : ∀ i < tps.length - 1,
      (tps.getD i dummyTp).radius + (tps.getD (i + 1) dummyTp).radius ≤
        geo.dist (tps.getD i dummyTp).center (tps.getD (i + 1) dummyTp).center)
    (hline : ∀ i < tps.length - 1,
      (tps.getD i dummyTp).goal_type ≠ some "LINE") :
    ∀ i, i + 1 < tps.length →
      chainDist geo tps i +
          geo.dist (chainPoint geo tps i)
            ((tps.getD (i + 1) dummyTp).center) ≤ legSum geo tps (i + 1) ∧
      geo.dist ((tps.getD i dummyTp).center) (chainPoint geo tps i) ≤
        (tps.getD i dummyTp).radius
  | 0, h => by
      constructor
      · simp only [chainDist, chainPoint, legSum]
        linarith [le_refl (geo.dist (tps.getD 0 dummyTp).center
          (tps.getD 1 dummyTp).center)]
      · simp only [chainPoint]
        rw [hgeo.dist_self]
        exact hrad 0 (by omega)
  | i + 1, h => by
      obtain ⟨H1, H2⟩ := chain_invariant geo hgeo tps hrad hsep hline i
        (by omega)
      have hnc : nextCenterAt tps (i + 1) = (tps.getD (i + 2) dummyTp).center := by
        rw [nextCenterAt, if_pos (by omega)]
      have hlineI := hline (i + 1) (by omega)
      have hcand : chainPoint geo tps (i + 1) =
          (if (tps.getD (i + 1) dummyTp).radius = 0 then
            (tps.getD (i + 1) dummyTp).center
          else geo.optCyl (tps.getD (i + 1) dummyTp).center
            (tps.getD (i + 1) dummyTp).radius (chainPoint geo tps i)
            ((tps.getD (i + 2) dummyTp).center)) := by
        rw [chainPoint, dpCandidate_eq, if_neg hlineI, hnc]
      have hDist : chainDist geo tps (i + 1) =
          chainDist geo tps i +
            geo.dist (chainPoint geo tps i) (chainPoint geo tps (i + 1)) := by
        rw [chainDist]
      have hLeg : legSum geo tps (i + 2) = legSum geo tps (i + 1) +
          geo.dist (tps.getD (i + 1) dummyTp).center
            (tps.getD (i + 2) dummyTp).center := by
        rw [legSum]
      by_cases hr : (tps.getD (i + 1) dummyTp).radius = 0
      · rw [if_pos hr] at hcand
        constructor
        · rw [hDist, hcand, hLeg]
          linarith
        · rw [hcand, hgeo.dist_self, hr]
      · rw [if_neg hr] at hcand
        have hrpos : 0 ≤ (tps.getD (i + 1) dummyTp).radius :=
          hrad (i + 1) (by omega)
        have hsepI := hsep i (by omega)
        have htri1 := hgeo.dist_triangle ((tps.getD i dummyTp).center)
          (chainPoint geo tps i) ((tps.getD (i + 1) dummyTp).center)
        have hstep : (tps.getD (i + 1) dummyTp).radius ≤
            geo.dist (chainPoint geo tps i)
              ((tps.getD (i + 1) dummyTp).center) := by
          linarith
        obtain ⟨z, hz1, hz2⟩ := hgeo.crossing (chainPoint geo tps i)
          ((tps.getD (i + 1) dummyTp).center)
          ((tps.getD (i + 1) dummyTp).radius) hrpos hstep
        have hmin := hgeo.optCyl_min ((tps.getD (i + 1) dummyTp).center)
          ((tps.getD (i + 1) dummyTp).radius) (chainPoint geo tps i)
          ((tps.getD (i + 2) dummyTp).center) z hz1
        have htri2 := hgeo.dist_triangle z
          ((tps.getD (i + 1) dummyTp).center)
          ((tps.getD (i + 2) dummyTp).center)
        constructor
        · rw [hDist, hcand, hLeg]
          linarith
        · rw [hcand]
          exact hgeo.optCyl_within _ _ _ _ hrpos
  termination_by i => i

lemma chainDist_le_legSum (geo : Geo) (hgeo : GeoSpec geo)
    (tps : List TaskTurnpoint) (hn : 2 ≤ tps.length)
    (hrad : ∀ i < tps.length, 0 ≤ (tps.getD i dummyTp).radius)
    (hsep : ∀ i < tps.length - 1,
      (tps.getD i dummyTp).radius + (tps.getD (i + 1) dummyTp).radius ≤
        geo.dist (tps.getD i dummyTp).center (tps.getD (i + 1) dummyTp).center)
    (hline : ∀ i < tps.length - 1,
      (tps.getD i dummyTp).goal_type ≠ some "LINE") :
    chainDist geo tps (tps.length - 1) ≤ legSum geo tps (tps.length - 1) := by
  obtain ⟨k, hk⟩ : ∃ k, tps.length - 1 = k + 1 := ⟨tps.length - 2, by omega⟩
  obtain ⟨H1, H2⟩ := chain_invariant geo hgeo tps hrad hsep hline k (by omega)
  have hnc : nextCenterAt tps (k + 1) = (tps.getD (k + 1) dummyTp).center := by
    rw [nextCenterAt, if_neg (by omega)]
  rw [hk]
  rw [chainDist]
  have hle : geo.dist (chainPoint geo tps k) (chainPoint geo tps (k + 1)) ≤
      geo.dist (chainPoint geo tps k) ((tps.getD (k + 1) dummyTp).center) := by
    rw [chainPoint, dpCandidate_eq, hnc]
    by_cases h1 : (tps.getD (k + 1) dummyTp).goal_type = some "LINE"
    · rw [if_pos h1]
      exact hgeo.optLine_le _ _ _ _
    · rw [if_neg h1]
      by_cases h2 : (tps.getD (k + 1) dummyTp).radius = 0
      · rw [if_pos h2]
      · rw [if_neg h2]
        have hrpos : 0 ≤ (tps.getD (k + 1) dummyTp).radius :=
          hrad (k + 1) (by omega)
        have hsepK := hsep k (by omega)
        have htri1 := hgeo.dist_triangle ((tps.getD k dummyTp).center)
          (chainPoint geo tps k) ((tps.getD (k + 1) dummyTp).center)
        have hstep : (tps.getD (k + 1) dummyTp).radius ≤
            geo.dist (chainPoint geo tps k)
              ((tps.getD (k + 1) dummyTp).center) := by
          linarith
        obtain ⟨z, hz1, hz2⟩ := hgeo.crossing (chainPoint geo tps k)
          ((tps.getD (k + 1) dummyTp).center)
          ((tps.getD (k + 1) dummyTp).radius) hrpos hstep
        have hmin := hgeo.optCyl_min ((tps.getD (k + 1) dummyTp).center)
          ((tps.getD (k + 1) dummyTp).radius) (chainPoint geo tps k)
          ((tps.getD (k + 1) dummyTp).center) z hz1
        have hnn := hgeo.dist_nonneg
          (geo.optCyl ((tps.getD (k + 1) dummyTp).center)
            ((tps.getD (k + 1) dummyTp).radius) (chainPoint geo tps k)
            ((tps.getD (k + 1) dummyTp).center))
          ((tps.getD (k + 1) dummyTp).center)
        linarith
  linarith

/-- C1 (amended): for every kernel satisfying the documented geodesy
contract and every valid turnpoint list with at least two turnpoints whose
consecutive cylinders are separated (the radii of any two consecutive
turnpoints sum to at most the distance between their centres — the
counterexample shows the bound fails when a cylinder contains the preceding
point) and with goal lines only at the terminal position, the
iterative-refinement optimizer is never worse than the centre-route
baseline: `optimized_distance(ts) ≤ distance_through_centers(ts) + 1e-6`. -/
theorem c1_optimizer_vs_baseline (geo : Geo) (hgeo : GeoSpec geo)
    (tps : List TaskTurnpoint) (hn : 2 ≤ tps.length)
    (hrad : ∀ i < tps.length, 0 ≤ (tps.getD i dummyTp).radius)
    (hsep : ∀ i < tps.length - 1,
      (tps.getD i dummyTp).radius + (tps.getD (i + 1) dummyTp).radius ≤
        geo.dist (tps.getD i dummyTp).center (tps.getD (i + 1) dummyTp).center)
    (hline : ∀ i < tps.length - 1,
      (tps.getD i dummyTp).goal_type ≠ some "LINE") :
    optimized_distance geo tps none none none ≤
      distanceThroughCenters geo tps + 1 / 1000000 := by
  simp only [optimized_distance, calculateIterativelyRefinedRoute,
    getOptimizationConfig, Option.getD_none, Option.getD_some]
  rw [if_neg (by omega)]
  have hinit : (computeOptimalRouteDp geo tps true DEFAULT_BEAM_WIDTH).1 =
      chainDist geo tps (tps.length - 1) := by
    rw [computeOptimalRouteDp, if_neg (by omega)]
    rw [computeOptimalRouteWithBeamSearch_chain geo tps true (by decide)]
  have hloop := refineLoop_fst_le geo tps DEFAULT_ANGLE_STEP
    DEFAULT_BEAM_WIDTH ((DEFAULT_NUM_ITERATIONS - 1).toNat)
    (computeOptimalRouteDp geo tps true DEFAULT_BEAM_WIDTH).1
    (computeOptimalRouteDp geo tps true DEFAULT_BEAM_WIDTH).2
    (computeOptimalRouteDp geo tps true DEFAULT_BEAM_WIDTH).2
  have hchain := chainDist_le_legSum geo hgeo tps hn hrad hsep hline
  rw [distanceThroughCenters_eq_legSum geo tps hn]
  have heps : (0 : ℚ) < 1 / 1000000 := by norm_num
  calc (refineLoop geo tps DEFAULT_ANGLE_STEP DEFAULT_BEAM_WIDTH
        ((DEFAULT_NUM_ITERATIONS - 1).toNat)
        (computeOptimalRouteDp geo tps true DEFAULT_BEAM_WIDTH).1
        (computeOptimalRouteDp geo tps true DEFAULT_BEAM_WIDTH).2
        (computeOptimalRouteDp geo tps true DEFAULT_BEAM_WIDTH).2).1
      ≤ (computeOptimalRouteDp geo tps true DEFAULT_BEAM_WIDTH).1 := hloop
    _ = chainDist geo tps (tps.length - 1) := hinit
    _ ≤ legSum geo tps (tps.length - 1) := hchain
    _ ≤ legSum geo tps (tps.length - 1) + 1 / 1000000 := by linarith

/-- The degenerate all-zero kernel satisfies the documented geodesy
contract. -/
lemma zeroGeo_spec : GeoSpec zeroGeo where
  dist_self := fun _ => rfl
  dist_symm := fun _ _ => rfl
  dist_triangle := fun _ _ _ => by norm_num [zeroGeo]
  dist_nonneg := fun _ _ => le_refl 0
  optCyl_within := fun c r prev next h => by simpa [zeroGeo] using h
  optCyl_min := fun _ _ _ _ _ _ => by norm_num [zeroGeo]
  crossing := fun a c r h1 h2 => by
    refine ⟨c, ?_, by norm_num [zeroGeo]⟩
    simp only [zeroGeo] at h2 ⊢
    linarith
  optLine_le := fun _ _ _ _ => le_refl 0

/-- C1 witness: the amended baseline bound applied to a concrete pair of
separated zero-radius turnpoints under the degenerate kernel. -/
theorem c1_optimizer_vs_baseline_witness :
    optimized_distance zeroGeo tpsPair none none none ≤
      distanceThroughCenters zeroGeo tpsPair + 1 / 1000000 :=
  c1_optimizer_vs_baseline zeroGeo zeroGeo_spec tpsPair (by decide)
    (by decide)
    (by
      intro i hi
      have hi0 : i = 0 := by
        simp only [tpsPair, List.length_cons, List.length_nil] at hi
        omega
      subst hi0
      norm_num [tpsPair, zeroGeo, dummyTp])
    (by decide)

/-- C1 counterexample: two turnpoints with coincident centres, the second a
1000 m cylinder (so the takeoff centre lies inside the final cylinder).  The
centre route has length 0, but the optimizer must touch the perimeter, so it
returns 1000 m: the claimed bound
`optimized_distance(ts) ≤ distance_through_centers(ts) + 1e-6` fails.  The
kernel used has the taxicab metric and a cylinder optimizer returning a
perimeter point, matching the real WGS84 behaviour on this input. -/
theorem c1_counterexample :
    distanceThroughCenters l1Geo tpsCoincident = 0 ∧
    optimized_distance l1Geo tpsCoincident none none none = 1000 ∧
    ¬ optimized_distance l1Geo tpsCoincident none none none ≤
        distanceThroughCenters l1Geo tpsCoincident + 1 / 1000000 := by
  have hc : distanceThroughCenters l1Geo tpsCoincident = 0 := by
    rw [distanceThroughCenters_eq_legSum _ _ (by decide)]
    norm_num [legSum, tpsCoincident, l1Geo, dummyTp]
  have hcp0 : chainPoint l1Geo tpsCoincident 0 = (46, 7) := by
    norm_num [chainPoint, tpsCoincident, dummyTp]
  have hcp1 : chainPoint l1Geo tpsCoincident 1 = (1046, 7) := by
    rw [show (1 : ℕ) = 0 + 1 from rfl, chainPoint, hcp0, dpCandidate_eq]
    norm_num [tpsCoincident, dummyTp, nextCenterAt, l1Geo]
    all_goals exact fun h => by simp at h
  have hcd1 : chainDist l1Geo tpsCoincident 1 = 1000 := by
    rw [show (1 : ℕ) = 0 + 1 from rfl, chainDist, chainDist, hcp0, hcp1]
    norm_num [l1Geo]
  have hpass : ∀ cur, ¬ (computeOptimalRouteWithRefinedTargets l1Geo
      (createRefinedTurnpoints tpsCoincident cur) cur (some 10)
      (some 10)).1 < 1000 := by
    intro cur
    have hlen : (createRefinedTurnpoints tpsCoincident cur).length = 2 := by
      simp [createRefinedTurnpoints, tpsCoincident]
    rw [computeOptimalRouteWithRefinedTargets_chain l1Geo _ cur (some 10)
      (by decide) (by omega)]
    simp only [hlen]
    have hr0 : chainPointR l1Geo (createRefinedTurnpoints tpsCoincident cur)
        cur 0 = (46, 7) := by
      rw [chainPointR, createRefinedTurnpoints_getD tpsCoincident cur 0
        (by decide)]
      norm_num [tpsCoincident, dummyTp]
    have hr1 : chainPointR l1Geo (createRefinedTurnpoints tpsCoincident cur)
        cur 1 = (1046, 7) := by
      rw [show (1 : ℕ) = 0 + 1 from rfl, chainPointR, hr0,
        createRefinedTurnpoints_getD tpsCoincident cur 1 (by decide)]
      norm_num [dpCandidateRefined, TaskTurnpoint.optimalPoint,
        tpsCoincident, dummyTp, l1Geo]
      all_goals exact fun h => by simp at h
    have hd1 : chainDistR l1Geo (createRefinedTurnpoints tpsCoincident cur)
        cur 1 = 1000 := by
      rw [show (1 : ℕ) = 0 + 1 from rfl, chainDistR, chainDistR, hr0, hr1]
      norm_num [l1Geo]
    rw [hd1]
    norm_num
  have hopt : optimized_distance l1Geo tpsCoincident none none none =
      1000 := by
    simp only [optimized_distance, calculateIterativelyRefinedRoute,
      getOptimizationConfig, Option.getD_none, Option.getD_some]
    rw [if_neg (by decide)]
    rw [computeOptimalRouteDp, if_neg (by decide)]
    rw [computeOptimalRouteWithBeamSearch_chain l1Geo tpsCoincident true
      (by decide)]
    simp only [if_true]
    have hlen1 : tpsCoincident.length - 1 = 1 := by decide
    rw [hlen1, hcd1]
    rw [refineLoop_stop l1Geo tpsCoincident DEFAULT_ANGLE_STEP
      DEFAULT_BEAM_WIDTH 1000 _ ?hstop ((DEFAULT_NUM_ITERATIONS - 1).toNat)
      _]
    case hstop =>
      intro cur
      have h10a : DEFAULT_ANGLE_STEP = (10 : ℤ) := rfl
      have h10b : DEFAULT_BEAM_WIDTH = (10 : ℤ) := rfl
      rw [h10a, h10b]
      exact hpass cur
  refine ⟨hc, hopt, ?_⟩
  rw [hc, hopt]
  norm_num
